import Mathlib

/-!
# Whisp: message submission, persistence and room routing

A shallow embedding of `src/server.js`.  Every handler of the server runs to
completion on the single JavaScript thread: it loads the whole document with
`loadDb`, changes it in place, writes it back with `saveDb`, and emits on
socket.io rooms.  A handler is therefore a function from the loaded document
(and the clock readings it takes) to the saved document, the list of emissions
and the HTTP reply.

Modelling choices, all local to this file:

* request fields are strings; a field that the source destructures with a
  default, or tests for presence, is an `Option String` (`none` is the absent
  field, JavaScript `undefined`); the field `name` of `POST /api/users`, the
  one field the source tests for truthiness and converts with `toString()`, is
  an arbitrary JSON value;
* `Date.now()` is a natural number of milliseconds; `new Date().toISOString()`
  is kept as the time value of that second clock reading (the ISO text is a
  rendering of it);
* the document written by `saveDb` and read back by `loadDb` is the same value
  (`JSON.parse (JSON.stringify db) = db` for the documents built here);
* socket.io room membership is the set of rooms joined by the handlers of
  `src/server.js`, together with the room every socket is in under its own
  id from its connection on.
-/

set_option autoImplicit false

namespace Whisp

/-! ## JavaScript strings -/

/-- UTF-16 code units of one character, as JavaScript stores it -/
def utf16Units (c : Char) : List Nat :=
  if c.toNat < 0x10000 then [c.toNat]
  else [0xD800 + (c.toNat - 0x10000) / 0x400, 0xDC00 + (c.toNat - 0x10000) % 0x400]

/-- UTF-16 code units of a string -/
def utf16 : List Char → List Nat
  | [] => []
  | c :: cs => utf16Units c ++ utf16 cs

/-- Lexicographic comparison of code unit sequences -/
def ltUnits : List Nat → List Nat → Bool
  | [], [] => false
  | [], _ :: _ => true
  | _ :: _, [] => false
  | a :: as, b :: bs => if a < b then true else if b < a then false else ltUnits as bs

/-- JavaScript `a < b` on strings: comparison by UTF-16 code units -/
def strLt (a b : String) : Bool := ltUnits (utf16 a.toList) (utf16 b.toList)

/-- Insertion step of the stable sort: `x` goes before the first element that
does not compare below it (`SortCompare(x, y) <= 0`) -/
def sortInsert (x : String) : List String → List String
  | [] => [x]
  | y :: ys => if strLt y x then y :: sortInsert x ys else x :: y :: ys

/-- The method `Array.prototype.sort()` without a comparator, on an array of strings:
a stable sort by UTF-16 code unit order -/
def sort : List String → List String
  | [] => []
  | x :: xs => sortInsert x (sort xs)

/-- The method `Array.prototype.join(sep)` on an array of strings -/
def join (sep : String) : List String → String
  | [] => ""
  | [x] => x
  | x :: y :: ys => x ++ sep ++ join sep (y :: ys)

/-- White space and line terminators removed by `String.prototype.trim` -/
def isTrimChar (c : Char) : Bool :=
  c.toNat = 0x9 || c.toNat = 0xA || c.toNat = 0xB || c.toNat = 0xC || c.toNat = 0xD
  || c.toNat = 0x20 || c.toNat = 0xA0 || c.toNat = 0x1680
  || (0x2000 ≤ c.toNat && c.toNat ≤ 0x200A)
  || c.toNat = 0x2028 || c.toNat = 0x2029 || c.toNat = 0x202F || c.toNat = 0x205F
  || c.toNat = 0x3000 || c.toNat = 0xFEFF

/-- The method `String.prototype.trim` -/
def trim (s : String) : String :=
  String.mk ((s.toList.dropWhile isTrimChar).reverse.dropWhile isTrimChar).reverse

/-- The method `Number.prototype.toString()` on a non-negative integer time value -/
def numToString (n : Nat) : String := toString n

/-! ## JSON values -/

/-- A value of a parsed JSON body.  A number is identified by the text
`Number.prototype.toString` renders for it (`0` for both zeros, `123`, `1.5`,
`1e+21`); an object by its own members, in order. -/
inductive JsVal where
  | null
  | bool (b : Bool)
  | num (text : String)
  | str (s : String)
  | arr (items : List JsVal)
  | obj (fields : List (String × JsVal))

/-- Conversion to boolean, the test behind `!name`: the falsy JSON values are
`null`, `false`, zero and the empty string -/
def truthy : JsVal → Bool
  | .null => false
  | .bool b => b
  | .num text => decide (text ≠ "0")
  | .str s => decide (s ≠ "")
  | .arr _ => true
  | .obj _ => true

/-- Whether a parsed object has an own member named `k` -/
def hasKey (fields : List (String × JsVal)) (k : String) : Bool :=
  fields.any (fun f => decide (f.1 = k))

mutual
/-- The call `v.toString()` on a JSON value, `none` when it throws a
`TypeError`: on `null`, and on an object whose own member `toString` (a JSON
value, never a function) hides `Object.prototype.toString`.  An array joins the
texts of its items with commas. -/
def toStringOf : JsVal → Option String
  | .null => none
  | .bool b => some (if b then "true" else "false")
  | .num text => some text
  | .str s => some s
  | .arr items => joinItems items
  | .obj fields => if hasKey fields "toString" then none else some "[object Object]"
/-- The method `Array.prototype.join()` with the default separator: `null`
items give the empty text, the others are converted to strings -/
def joinItems : List JsVal → Option String
  | [] => some ""
  | [x] => itemText x
  | x :: y :: rest =>
    match itemText x, joinItems (y :: rest) with
    | some a, some b => some (a ++ "," ++ b)
    | _, _ => none
/-- The text of one array item inside `join` -/
def itemText : JsVal → Option String
  | .null => some ""
  | .bool b => some (if b then "true" else "false")
  | .num text => some text
  | .str s => some s
  | .arr items => joinItems items
  | .obj fields => if hasKey fields "toString" then none else some "[object Object]"
end

/-! ## Data model: the document kept in `db.json` -/

structure User where
  id : String
  name : String
  deriving DecidableEq, Repr

structure Channel where
  id : String
  name : String
  deriving DecidableEq, Repr

structure ServerMessage where
  id : Nat
  author : String
  text : String
  channelId : String
  createdAt : Nat
  deriving DecidableEq, Repr

structure Server where
  id : String
  name : String
  channels : List Channel
  messages : List ServerMessage
  deriving DecidableEq, Repr

/-- A stored direct message; `sender` is the field `from` of the source -/
structure DmMessage where
  id : Nat
  sender : String
  text : String
  createdAt : Nat
  deriving DecidableEq, Repr

structure DmThread where
  id : String
  participants : List String
  messages : List DmMessage
  deriving DecidableEq, Repr

structure TimelinePost where
  id : Nat
  author : String
  text : String
  createdAt : Nat
  deriving DecidableEq, Repr

structure Store where
  users : List User
  servers : List Server
  timeline : List TimelinePost
  dms : List DmThread
  deriving DecidableEq, Repr

/-- The document `loadDb` creates when `db.json` does not exist -/
def init : Store := { users := [], servers := [], timeline := [], dms := [] }

/-- The two clock readings of a handler: `Date.now()` for the id and
`new Date()` for `createdAt` -/
structure Clock where
  now : Nat
  date : Nat
  deriving DecidableEq, Repr

/-! ## Requests, replies and emissions -/

structure TimelineBody where
  author : Option String
  text : Option String
  deriving DecidableEq, Repr

structure ServerBody where
  name : Option String
  deriving DecidableEq, Repr

structure ServerMessageBody where
  text : Option String
  channelId : Option String
  deriving DecidableEq, Repr

/-- Body of `POST /api/users`: the member `name`, any JSON value, or absent -/
structure UserBody where
  name : Option JsVal

/-- Body of `POST /api/dms`; `sender` and `recipient` are the fields `from` and
`to` of the source, which are reserved words here -/
structure DmBody where
  sender : Option String
  recipient : Option String
  text : Option String
  deriving DecidableEq, Repr

/-- Payload of the socket event `server:message` -/
structure ServerMessageEvent where
  serverId : String
  channelId : Option String
  author : Option String
  text : Option String
  deriving DecidableEq, Repr

/-- Message object built by the socket event `dm:send` -/
structure P2pMessage where
  id : Nat
  text : String
  createdAt : Nat
  deriving DecidableEq, Repr

/-- Body of an HTTP reply: a JSON document, or (`uncaught`) the page the
default error handler of Express sends with status 500 when a handler throws -/
inductive Body where
  | timeline (l : List TimelinePost)
  | post (p : TimelinePost)
  | servers (l : List Server)
  | server (s : Server)
  | serverMessage (m : ServerMessage)
  | dms (l : List DmThread)
  | thread (t : DmThread)
  | users (l : List User)
  | user (u : User)
  | dmMessage (m : DmMessage)
  | error (e : String)
  | uncaught
  deriving DecidableEq, Repr

/-- Data of an emitted socket event -/
inductive Payload where
  | timelineNew (p : TimelinePost)
  | serverNew (s : Server)
  | serverMessage (serverId : String) (msg : ServerMessage)
  | dmNew (threadId : String) (msg : DmMessage)
  | dmReceive (sender : String) (msg : P2pMessage)
  deriving DecidableEq, Repr

/-- One emission: `io.emit(event, payload)` has no room, `io.to(room).emit`
has one -/
structure Emit where
  room : Option String
  event : String
  payload : Payload
  deriving DecidableEq, Repr

/-- What a REST handler leaves behind: the saved document, the emissions, and
the reply -/
structure Result where
  db : Store
  emits : List Emit
  status : Nat
  body : Body
  deriving DecidableEq, Repr

/-! ## Helpers for in-place updates -/

/-- Change the first element satisfying `p`: the effect of mutating the object
returned by `Array.prototype.find` -/
def modifyFirst {α : Type} (p : α → Bool) (f : α → α) : List α → List α
  | [] => []
  | x :: xs => if p x then f x :: xs else x :: modifyFirst p f xs

/-- The statement `srv.messages.push(msg)` on the server that
`db.servers.find(s => s.id === id)` returned -/
def pushServerMessage (servers : List Server) (id : String) (msg : ServerMessage) :
    List Server :=
  modifyFirst (fun s => decide (s.id = id))
    (fun s => { s with messages := s.messages ++ [msg] }) servers

/-- The statement `thread.messages.push(msg)` on the thread found under `id` -/
def pushDmMessage (dms : List DmThread) (id : String) (msg : DmMessage) : List DmThread :=
  modifyFirst (fun d => decide (d.id = id))
    (fun d => { d with messages := d.messages ++ [msg] }) dms

/-- The lookup `db.servers.find(s => s.id === id)` -/
def findServer (db : Store) (id : String) : Option Server :=
  db.servers.find? (fun s => decide (s.id = id))

/-- The lookup `db.dms.find(d => d.id === threadId)` -/
def findThread (db : Store) (id : String) : Option DmThread :=
  db.dms.find? (fun d => decide (d.id = id))

/-- The expression `[from,to].sort().join('-')` of `POST /api/dms` -/
def threadId (sender recipient : String) : String :=
  join "-" (sort [sender, recipient])

/-- The room name of a server, the template `server:` followed by the id -/
def serverRoom (serverId : String) : String := "server:" ++ serverId

/-! ## REST handlers -/

/-- Handler of `GET /api/timeline` -/
def getTimeline (db : Store) : Result :=
  { db := db, emits := [], status := 200, body := .timeline db.timeline }

/-- Handler of `POST /api/timeline` -/
def postTimeline (db : Store) (clk : Clock) (b : TimelineBody) : Result :=
  let author := b.author.getD "Anonymous"
  let text := b.text.getD ""
  let post : TimelinePost := { id := clk.now, author := author, text := text, createdAt := clk.date }
  { db := { db with timeline := post :: db.timeline }
    emits := [{ room := none, event := "timeline:new", payload := .timelineNew post }]
    status := 200
    body := .post post }

/-- Handler of `GET /api/servers` -/
def getServers (db : Store) : Result :=
  { db := db, emits := [], status := 200, body := .servers db.servers }

/-- Handler of `POST /api/servers` -/
def postServers (db : Store) (clk : Clock) (b : ServerBody) : Result :=
  let name := b.name.getD "New Server"
  let srv : Server :=
    { id := numToString clk.now, name := name
      channels := [{ id := "general", name := "general" }], messages := [] }
  { db := { db with servers := db.servers ++ [srv] }
    emits := [{ room := none, event := "server:new", payload := .serverNew srv }]
    status := 200
    body := .server srv }

/-- Handler of `GET /api/servers/:id` -/
def getServer (db : Store) (id : String) : Result :=
  match findServer db id with
  | none => { db := db, emits := [], status := 404, body := .error "not found" }
  | some srv => { db := db, emits := [], status := 200, body := .server srv }

/-- Handler of `POST /api/servers/:id/messages` -/
def postServerMessage (db : Store) (clk : Clock) (id : String) (b : ServerMessageBody) : Result :=
  let text := b.text.getD ""
  let channelId := b.channelId.getD "general"
  match findServer db id with
  | none => { db := db, emits := [], status := 404, body := .error "server not found" }
  | some srv =>
    let msg : ServerMessage :=
      { id := clk.now, author := "anonymous", text := text, channelId := channelId
        createdAt := clk.date }
    { db := { db with servers := pushServerMessage db.servers id msg }
      emits := [{ room := some (serverRoom srv.id), event := "server:message"
                  payload := .serverMessage srv.id msg }]
      status := 200
      body := .serverMessage msg }

/-- Handler of `GET /api/dms` -/
def getDms (db : Store) : Result :=
  { db := db, emits := [], status := 200, body := .dms db.dms }

/-- Handler of `GET /api/dms/:id` -/
def getDm (db : Store) (id : String) : Result :=
  match findThread db id with
  | none => { db := db, emits := [], status := 404, body := .error "dm thread not found" }
  | some t => { db := db, emits := [], status := 200, body := .thread t }

/-- Handler of `GET /api/users` -/
def getUsers (db : Store) : Result :=
  { db := db, emits := [], status := 200, body := .users db.users }

/-- Handler of `POST /api/users` -/
def postUsers (db : Store) (clk : Clock) (b : UserBody) : Result :=
  match b.name with
  | none => { db := db, emits := [], status := 400, body := .error "name required" }
  | some name =>
    if truthy name = false then
      { db := db, emits := [], status := 400, body := .error "name required" }
    else
      match toStringOf name with
      | none => { db := db, emits := [], status := 500, body := .uncaught }
      | some text =>
        if trim text = "" then
          { db := db, emits := [], status := 400, body := .error "name required" }
        else
          let user : User := { id := numToString clk.now, name := trim text }
          { db := { db with users := db.users ++ [user] }
            emits := []
            status := 200
            body := .user user }

/-- Handler of `POST /api/dms` -/
def postDms (db : Store) (clk : Clock) (b : DmBody) : Result :=
  let sender := b.sender.getD "me"
  let recipient := b.recipient.getD "them"
  let text := b.text.getD ""
  let tid := threadId sender recipient
  let dms :=
    match findThread db tid with
    | none => db.dms ++ [{ id := tid, participants := [sender, recipient], messages := [] }]
    | some _ => db.dms
  let msg : DmMessage := { id := clk.now, sender := sender, text := text, createdAt := clk.date }
  { db := { db with dms := pushDmMessage dms tid msg }
    emits := [{ room := some tid, event := "dm:new", payload := .dmNew tid msg }]
    status := 200
    body := .dmMessage msg }

/-! ## Socket handlers -/

/-- What a socket handler leaves behind: the saved document and the emissions -/
structure SocketResult where
  db : Store
  emits : List Emit
  deriving DecidableEq, Repr

/-- Handler of the socket event `server:message` -/
def onServerMessage (db : Store) (clk : Clock) (e : ServerMessageEvent) : SocketResult :=
  let channelId := e.channelId.getD "general"
  let author := e.author.getD "anon"
  let text := e.text.getD ""
  let msg : ServerMessage :=
    { id := clk.now, author := author, text := text, channelId := channelId
      createdAt := clk.date }
  let db1 :=
    match findServer db e.serverId with
    | some _ => { db with servers := pushServerMessage db.servers e.serverId msg }
    | none => db
  { db := db1
    emits := [{ room := some (serverRoom e.serverId), event := "server:message"
                payload := .serverMessage e.serverId msg }] }

/-- Handler of the socket event `dm:send`: nothing is stored -/
def onDmSend (db : Store) (clk : Clock) (socketId recipient text : String) : SocketResult :=
  let msg : P2pMessage := { id := clk.now, text := text, createdAt := clk.date }
  { db := db
    emits := [{ room := some recipient, event := "dm:receive"
                payload := .dmReceive socketId msg }] }

/-- The call `socket.join(room)`: membership is a set of pairs (socket id, room) -/
def joinRoom (members : List (String × String)) (socketId room : String) :
    List (String × String) :=
  if (socketId, room) ∈ members then members else members ++ [(socketId, room)]

/-- The call `socket.leave(room)` -/
def leaveRoom (members : List (String × String)) (socketId room : String) :
    List (String × String) :=
  members.filter (fun m => decide (m ≠ (socketId, room)))

/-- Whether an emission reaches the connected socket `socketId`: `io.emit`
reaches every socket, `io.to(room).emit` the sockets in the room.  Besides the
rooms it joined through `members`, a socket is in the room named by its own
id, which socket.io puts it in on connection (the handler of `dm:send` relies
on it); no handler leaves that room, socket ids holding no colon. -/
def delivered (members : List (String × String)) (socketId : String) (e : Emit) : Bool :=
  match e.room with
  | none => true
  | some r => decide (r = socketId) || decide ((socketId, r) ∈ members)

/-! ## The server as a transition system -/

inductive Request where
  | getTimeline
  | postTimeline (b : TimelineBody)
  | getServers
  | postServers (b : ServerBody)
  | getServer (id : String)
  | postServerMessage (id : String) (b : ServerMessageBody)
  | getDms
  | getDm (id : String)
  | getUsers
  | postUsers (b : UserBody)
  | postDms (b : DmBody)

inductive SocketEvent where
  | joinServer (serverId : String)
  | leaveServer (serverId : String)
  | joinDm (threadId : String)
  | serverMessage (e : ServerMessageEvent)
  | dmSend (recipient : String) (text : String)
  deriving DecidableEq, Repr

inductive Op where
  | rest (r : Request)
  | socket (socketId : String) (e : SocketEvent)

/-- The Express routing table -/
def handle (db : Store) (clk : Clock) : Request → Result
  | .getTimeline => getTimeline db
  | .postTimeline b => postTimeline db clk b
  | .getServers => getServers db
  | .postServers b => postServers db clk b
  | .getServer id => getServer db id
  | .postServerMessage id b => postServerMessage db clk id b
  | .getDms => getDms db
  | .getDm id => getDm db id
  | .getUsers => getUsers db
  | .postUsers b => postUsers db clk b
  | .postDms b => postDms db clk b

/-- The whole server: the document, room membership, and every emission made
so far, oldest first -/
structure Sys where
  db : Store
  members : List (String × String)
  log : List Emit
  deriving DecidableEq, Repr

/-- The server before any request, on a fresh `db.json` -/
def Sys.start : Sys := { db := init, members := [], log := [] }

/-- One handler run to completion -/
def step (s : Sys) (clk : Clock) : Op → Sys
  | .rest r =>
    let res := handle s.db clk r
    { s with db := res.db, log := s.log ++ res.emits }
  | .socket sid (.joinServer serverId) =>
    { s with members := joinRoom s.members sid (serverRoom serverId) }
  | .socket sid (.leaveServer serverId) =>
    { s with members := leaveRoom s.members sid (serverRoom serverId) }
  | .socket sid (.joinDm threadId) =>
    { s with members := joinRoom s.members sid threadId }
  | .socket _ (.serverMessage e) =>
    let res := onServerMessage s.db clk e
    { s with db := res.db, log := s.log ++ res.emits }
  | .socket sid (.dmSend recipient text) =>
    let res := onDmSend s.db clk sid recipient text
    { s with db := res.db, log := s.log ++ res.emits }

/-- Handlers run one after another, each with its own clock readings -/
def run (s : Sys) : List (Clock × Op) → Sys
  | [] => s
  | (clk, op) :: rest => run (step s clk op) rest

/-- The messages of the server with id `id` in the document (none when there
is no such server) -/
def serverMessages (db : Store) (id : String) : List ServerMessage :=
  match findServer db id with
  | some srv => srv.messages
  | none => []

/-- The messages of the thread with id `id` in the document (none when there
is no such thread) -/
def threadMessages (db : Store) (id : String) : List DmMessage :=
  match findThread db id with
  | some t => t.messages
  | none => []

/-- The server messages emitted to the room of server `id`, oldest first -/
def published (log : List Emit) (id : String) : List ServerMessage :=
  log.filterMap (fun e =>
    if e.room = some (serverRoom id) then
      match e.payload with
      | .serverMessage _ msg => some msg
      | _ => none
    else none)

/-! ## Names for the values the handlers build -/

/-- The message built by `POST /api/servers/:id/messages` -/
def restMessage (clk : Clock) (b : ServerMessageBody) : ServerMessage :=
  { id := clk.now, author := "anonymous", text := b.text.getD ""
    channelId := b.channelId.getD "general", createdAt := clk.date }

/-- The message built by the socket event `server:message` -/
def socketMessage (clk : Clock) (e : ServerMessageEvent) : ServerMessage :=
  { id := clk.now, author := e.author.getD "anon", text := e.text.getD ""
    channelId := e.channelId.getD "general", createdAt := clk.date }

/-- The thread id `POST /api/dms` computes from a body, defaults applied -/
def dmThreadId (b : DmBody) : String :=
  threadId (b.sender.getD "me") (b.recipient.getD "them")

/-- The message `POST /api/dms` builds from a body, defaults applied -/
def dmMessage (clk : Clock) (b : DmBody) : DmMessage :=
  { id := clk.now, sender := b.sender.getD "me", text := b.text.getD "", createdAt := clk.date }

/-- An operation that submits a server message addressed to server `id`,
through REST or through the socket -/
def submitsTo (id : String) : Op → Bool
  | .rest (.postServerMessage id2 _) => decide (id2 = id)
  | .socket _ (.serverMessage e) => decide (e.serverId = id)
  | _ => false

/-- Every socket event `server:message` of the run addresses a server that is
in the document when the event is handled -/
def knownTargets (s : Sys) : List (Clock × Op) → Prop
  | [] => True
  | (clk, op) :: rest =>
    (match op with
      | .socket _ (.serverMessage e) => findServer s.db e.serverId ≠ none
      | _ => True) ∧ knownTargets (step s clk op) rest

/-! ## Sample data -/

/-- A server with id `1`, holding one message -/
def sampleServer : Server :=
  { id := "1", name := "Gaming", channels := [{ id := "general", name := "general" }]
    messages := [{ id := 3, author := "anonymous", text := "first"
                   channelId := "general", createdAt := 3 }] }

/-- A document with that one server -/
def sampleDb : Store :=
  { users := [], servers := [sampleServer], timeline := [], dms := [] }

/-- A document, as `loadDb` reads it from an edited `db.json`, in which two
threads carry the id `u1-u2` -/
def duplicateThreads : Store :=
  { users := [], servers := [], timeline := []
    dms := [{ id := "u1-u2", participants := ["u1", "u2"], messages := [] },
            { id := "u1-u2", participants := ["u2", "u1"], messages := [] }] }

/-! ## Strings: code unit order is a strict total order -/

theorem char_range (c : Char) :
    c.toNat < 0xD800 ∨ (0xDFFF < c.toNat ∧ c.toNat < 0x110000) := by
  have h := c.valid
  simpa [UInt32.isValidChar, Nat.isValidChar, Char.toNat] using h

theorem char_eq_of_toNat {c d : Char} (h : c.toNat = d.toNat) : c = d := by
  apply Char.ext
  apply UInt32.ext
  exact h

theorem utf16Units_append_inj (c d : Char) (r s : List Nat)
    (h : utf16Units c ++ r = utf16Units d ++ s) : c = d ∧ r = s := by
  have hc := char_range c
  have hd := char_range d
  unfold utf16Units at h
  split at h <;> split at h
  · simp at h
    exact ⟨char_eq_of_toNat h.1, h.2⟩
  · simp at h
    omega
  · simp at h
    omega
  · simp at h
    refine ⟨char_eq_of_toNat ?_, h.2.2⟩
    omega

theorem utf16_inj : ∀ (l m : List Char), utf16 l = utf16 m → l = m
  | [], [] => fun _ => rfl
  | [], d :: m => fun h => by
    simp [utf16, utf16Units] at h
    split at h <;> simp at h
  | c :: l, [] => fun h => by
    simp [utf16, utf16Units] at h
    split at h <;> simp at h
  | c :: l, d :: m => fun h => by
    simp only [utf16] at h
    obtain ⟨h1, h2⟩ := utf16Units_append_inj c d _ _ h
    rw [h1, utf16_inj l m h2]

theorem ltUnits_asymm : ∀ (l m : List Nat), ltUnits l m = true → ltUnits m l = false
  | [], [] => by simp [ltUnits]
  | [], _ :: _ => by simp [ltUnits]
  | _ :: _, [] => by simp [ltUnits]
  | a :: l, b :: m => by
    intro h
    simp only [ltUnits] at h ⊢
    by_cases h1 : a < b
    · have : ¬ b < a := by omega
      simp [this, h1]
    · by_cases h2 : b < a
      · simp [h1, h2] at h
      · simp [h1, h2] at h ⊢
        exact ltUnits_asymm l m h

theorem ltUnits_total : ∀ (l m : List Nat), ltUnits l m = false → ltUnits m l = false → l = m
  | [], [] => by simp
  | [], _ :: _ => by simp [ltUnits]
  | _ :: _, [] => by simp [ltUnits]
  | a :: l, b :: m => by
    intro h h'
    simp only [ltUnits] at h h'
    by_cases h1 : a < b
    · simp [h1] at h
    · by_cases h2 : b < a
      · simp [h2] at h'
      · simp [h1, h2] at h h'
        have : a = b := by omega
        rw [this, ltUnits_total l m h h']

theorem strLt_asymm (a b : String) (h : strLt a b = true) : strLt b a = false :=
  ltUnits_asymm _ _ h

theorem strLt_total (a b : String) (h : strLt a b = false) (h' : strLt b a = false) :
    a = b :=
  String.ext (utf16_inj _ _ (ltUnits_total _ _ h h'))

/-- The sorted pair, spelled out: the smaller string first, the given order
kept when neither is smaller -/
theorem threadId_eq (a b : String) :
    threadId a b = if strLt b a then b ++ "-" ++ a else a ++ "-" ++ b := by
  simp only [threadId, sort, sortInsert, join]
  split <;> rfl

/-! ## Lookups and in-place updates -/

theorem find?_modifyFirst_same {α : Type} (p : α → Bool) (f : α → α)
    (hp : ∀ x, p (f x) = p x) :
    ∀ l : List α, (modifyFirst p f l).find? p = (l.find? p).map f
  | [] => by simp [modifyFirst]
  | x :: xs => by
    by_cases h : p x = true
    · simp [modifyFirst, h, hp]
    · simp [modifyFirst, h, find?_modifyFirst_same p f hp xs]

theorem find?_modifyFirst_other {α : Type} (p q : α → Bool) (f : α → α)
    (hq : ∀ x, q (f x) = q x) (hpq : ∀ x, p x = true → q x = false) :
    ∀ l : List α, (modifyFirst p f l).find? q = l.find? q
  | [] => by simp [modifyFirst]
  | x :: xs => by
    by_cases h : p x = true
    · simp [modifyFirst, h, hq, hpq x h]
    · by_cases h2 : q x = true
      · simp [modifyFirst, h, h2]
      · simp [modifyFirst, h, h2, find?_modifyFirst_other p q f hq hpq xs]

theorem modifyFirst_append_of_none {α : Type} (p : α → Bool) (f : α → α) (y : α) :
    ∀ l : List α, l.find? p = none →
      modifyFirst p f (l ++ [y]) = l ++ [if p y then f y else y]
  | [] => by
    intro _
    by_cases h : p y = true <;> simp [modifyFirst, h]
  | x :: xs => by
    intro h
    by_cases hx : p x = true
    · simp [hx] at h
    · have hxs : xs.find? p = none := by simpa [hx] using h
      simp [modifyFirst, hx, modifyFirst_append_of_none p f y xs hxs]

theorem length_modifyFirst {α : Type} (p : α → Bool) (f : α → α) :
    ∀ l : List α, (modifyFirst p f l).length = l.length
  | [] => rfl
  | x :: xs => by
    by_cases h : p x = true <;> simp [modifyFirst, h, length_modifyFirst p f xs]

theorem find?_pushServerMessage (servers : List Server) (id : String) (msg : ServerMessage) :
    (pushServerMessage servers id msg).find? (fun s => decide (s.id = id)) =
      (servers.find? (fun s => decide (s.id = id))).map
        (fun s => { s with messages := s.messages ++ [msg] }) := by
  unfold pushServerMessage
  apply find?_modifyFirst_same
  intro _
  rfl

theorem find?_pushServerMessage_other (servers : List Server) (id id2 : String)
    (msg : ServerMessage) (h : id2 ≠ id) :
    (pushServerMessage servers id msg).find? (fun s => decide (s.id = id2)) =
      servers.find? (fun s => decide (s.id = id2)) := by
  unfold pushServerMessage
  apply find?_modifyFirst_other
  · intro _
    rfl
  intro x hx
  simp only [decide_eq_true_eq] at hx
  simp [hx, Ne.symm h]

theorem find?_pushDmMessage (dms : List DmThread) (id : String) (msg : DmMessage) :
    (pushDmMessage dms id msg).find? (fun d => decide (d.id = id)) =
      (dms.find? (fun d => decide (d.id = id))).map
        (fun d => { d with messages := d.messages ++ [msg] }) := by
  unfold pushDmMessage
  apply find?_modifyFirst_same
  intro _
  rfl

theorem find?_pushDmMessage_other (dms : List DmThread) (id id2 : String)
    (msg : DmMessage) (h : id2 ≠ id) :
    (pushDmMessage dms id msg).find? (fun d => decide (d.id = id2)) =
      dms.find? (fun d => decide (d.id = id2)) := by
  unfold pushDmMessage
  apply find?_modifyFirst_other
  · intro _
    rfl
  intro x hx
  simp only [decide_eq_true_eq] at hx
  simp [hx, Ne.symm h]

/-- After a push on the server found under `id`, the messages found under `id`
are the old ones followed by the pushed one -/
theorem serverMessages_push (db : Store) (id : String) (msg : ServerMessage) (srv : Server)
    (h : findServer db id = some srv) :
    serverMessages { db with servers := pushServerMessage db.servers id msg } id
      = srv.messages ++ [msg] := by
  unfold findServer at h
  simp only [serverMessages, findServer]
  rw [find?_pushServerMessage, h]
  rfl

/-- A push on the server found under `id` leaves the messages found under any
other id alone -/
theorem serverMessages_push_other (db : Store) (id id2 : String) (msg : ServerMessage)
    (h : id2 ≠ id) :
    serverMessages { db with servers := pushServerMessage db.servers id msg } id2
      = serverMessages db id2 := by
  simp only [serverMessages, findServer]
  rw [find?_pushServerMessage_other _ _ _ _ h]

theorem postServerMessage_found (db : Store) (clk : Clock) (id : String)
    (b : ServerMessageBody) (srv : Server) (h : findServer db id = some srv) :
    postServerMessage db clk id b =
      { db := { db with servers := pushServerMessage db.servers id (restMessage clk b) }
        emits := [{ room := some (serverRoom srv.id), event := "server:message"
                    payload := .serverMessage srv.id (restMessage clk b) }]
        status := 200
        body := .serverMessage (restMessage clk b) } := by
  simp only [postServerMessage, h, restMessage]

theorem postServerMessage_missing (db : Store) (clk : Clock) (id : String)
    (b : ServerMessageBody) (h : findServer db id = none) :
    postServerMessage db clk id b =
      { db := db, emits := [], status := 404, body := .error "server not found" } := by
  simp only [postServerMessage, h]

theorem findServer_id (db : Store) (id : String) (srv : Server)
    (h : findServer db id = some srv) : srv.id = id := by
  have := List.find?_some h
  simpa using this

theorem findServer_eq_none (db : Store) (id : String) :
    findServer db id = none ↔ ∀ s ∈ db.servers, s.id ≠ id := by
  simp [findServer, List.find?_eq_none]

theorem findThread_eq_none (db : Store) (id : String) :
    findThread db id = none ↔ ∀ d ∈ db.dms, d.id ≠ id := by
  simp [findThread, List.find?_eq_none]

/-! ## Direct messages -/

theorem postDms_reply (db : Store) (clk : Clock) (b : DmBody) :
    (postDms db clk b).status = 200 ∧ (postDms db clk b).body = .dmMessage (dmMessage clk b)
    ∧ (postDms db clk b).emits =
        [{ room := some (dmThreadId b), event := "dm:new"
           payload := .dmNew (dmThreadId b) (dmMessage clk b) }] :=
  ⟨rfl, rfl, rfl⟩

theorem postDms_rest (db : Store) (clk : Clock) (b : DmBody) :
    (postDms db clk b).db.users = db.users ∧ (postDms db clk b).db.servers = db.servers
    ∧ (postDms db clk b).db.timeline = db.timeline :=
  ⟨rfl, rfl, rfl⟩

/-- The stored threads after `POST /api/dms`, by cases on the lookup -/
theorem postDms_dms (db : Store) (clk : Clock) (b : DmBody) :
    (postDms db clk b).db.dms =
      match findThread db (dmThreadId b) with
      | none => db.dms ++ [{ id := dmThreadId b
                             participants := [b.sender.getD "me", b.recipient.getD "them"]
                             messages := [dmMessage clk b] }]
      | some _ => pushDmMessage db.dms (dmThreadId b) (dmMessage clk b) := by
  cases h : findThread db (dmThreadId b) with
  | none =>
    have h2 : findThread db (threadId (b.sender.getD "me") (b.recipient.getD "them")) = none := h
    have h3 := h2
    unfold findThread at h3
    simp only [postDms, h2, pushDmMessage]
    rw [modifyFirst_append_of_none _ _ _ _ h3]
    simp [dmThreadId, dmMessage]
  | some t =>
    have h2 : findThread db (threadId (b.sender.getD "me") (b.recipient.getD "them")) = some t := h
    simp only [postDms, h2]
    rfl

/-- The thread found under the computed id holds its old messages followed by
the new one -/
theorem threadMessages_postDms (db : Store) (clk : Clock) (b : DmBody) :
    threadMessages (postDms db clk b).db (dmThreadId b) =
      threadMessages db (dmThreadId b) ++ [dmMessage clk b] := by
  have hd := postDms_dms db clk b
  cases h : findThread db (dmThreadId b) with
  | none =>
    rw [h] at hd
    have h3 := h
    unfold findThread at h3
    simp only [threadMessages, findThread, hd, h3]
    simp [List.find?_append, h3]
  | some t =>
    rw [h] at hd
    have h3 := h
    unfold findThread at h3
    simp only [threadMessages, findThread, hd]
    rw [find?_pushDmMessage, h3]
    rfl

theorem map_id_modifyFirst {α β : Type} (p : α → Bool) (f : α → α) (g : α → β)
    (hg : ∀ x, g (f x) = g x) :
    ∀ l : List α, (modifyFirst p f l).map g = l.map g
  | [] => rfl
  | x :: xs => by
    by_cases h : p x = true <;> simp [modifyFirst, h, hg, map_id_modifyFirst p f g hg xs]

theorem ids_pushDmMessage (dms : List DmThread) (id : String) (msg : DmMessage) :
    (pushDmMessage dms id msg).map (fun d => d.id) = dms.map (fun d => d.id) := by
  unfold pushDmMessage
  apply map_id_modifyFirst
  intro _
  rfl

/-- The thread ids after `POST /api/dms`: one new id at the end when the lookup
failed, the same ids otherwise -/
theorem postDms_ids (db : Store) (clk : Clock) (b : DmBody) :
    (postDms db clk b).db.dms.map (fun d => d.id) =
      if (dmThreadId b) ∈ db.dms.map (fun d => d.id) then db.dms.map (fun d => d.id)
      else db.dms.map (fun d => d.id) ++ [dmThreadId b] := by
  rw [postDms_dms]
  cases h : findThread db (dmThreadId b) with
  | none =>
    have h1 := (findThread_eq_none db _).1 h
    have h2 : ¬ (dmThreadId b) ∈ db.dms.map (fun d => d.id) := by
      simp only [List.mem_map, not_exists, not_and]
      intro d hd
      exact h1 d hd
    simp [h2]
  | some t =>
    have h1 : t ∈ db.dms ∧ t.id = dmThreadId b := by
      unfold findThread at h
      refine ⟨List.mem_of_find?_eq_some h, ?_⟩
      simpa using List.find?_some h
    have h2 : (dmThreadId b) ∈ db.dms.map (fun d => d.id) :=
      List.mem_map.2 ⟨t, h1.1, h1.2⟩
    simp only [h2, if_true]
    exact ids_pushDmMessage _ _ _

/-! ## Users -/

/-- `POST /api/users` touches `users` only and emits nothing -/
theorem postUsers_rest (db : Store) (clk : Clock) (b : UserBody) :
    (postUsers db clk b).db.servers = db.servers ∧ (postUsers db clk b).db.timeline = db.timeline
    ∧ (postUsers db clk b).db.dms = db.dms ∧ (postUsers db clk b).emits = [] := by
  unfold postUsers
  split
  · exact ⟨rfl, rfl, rfl, rfl⟩
  · split
    · exact ⟨rfl, rfl, rfl, rfl⟩
    · split
      · exact ⟨rfl, rfl, rfl, rfl⟩
      · split <;> exact ⟨rfl, rfl, rfl, rfl⟩

/-! ## Generated ids -/

theorem digitChar_ne_dash (m : Nat) : Nat.digitChar m ≠ '-' := by
  rcases Nat.lt_or_ge m 16 with h | h
  · interval_cases m <;> decide
  · have h0 : ¬ m = 0 := by omega
    have h1 : ¬ m = 1 := by omega
    have h2 : ¬ m = 2 := by omega
    have h3 : ¬ m = 3 := by omega
    have h4 : ¬ m = 4 := by omega
    have h5 : ¬ m = 5 := by omega
    have h6 : ¬ m = 6 := by omega
    have h7 : ¬ m = 7 := by omega
    have h8 : ¬ m = 8 := by omega
    have h9 : ¬ m = 9 := by omega
    have h10 : ¬ m = 10 := by omega
    have h11 : ¬ m = 11 := by omega
    have h12 : ¬ m = 12 := by omega
    have h13 : ¬ m = 13 := by omega
    have h14 : ¬ m = 14 := by omega
    have h15 : ¬ m = 15 := by omega
    simp only [Nat.digitChar, h0, h1, h2, h3, h4, h5, h6, h7, h8, h9, h10, h11, h12, h13, h14, h15, if_false]
    decide

theorem toDigitsCore_no_dash : ∀ (fuel n : Nat) (ds : List Char),
    ('-' : Char) ∉ ds → ('-' : Char) ∉ Nat.toDigitsCore 10 fuel n ds
  | 0, _, ds, h => by simpa [Nat.toDigitsCore] using h
  | fuel + 1, n, ds, h => by
    have hd : ('-' : Char) ∉ Nat.digitChar (n % 10) :: ds := by
      simp only [List.mem_cons, not_or]
      exact ⟨fun e => digitChar_ne_dash _ e.symm, h⟩
    simp only [Nat.toDigitsCore]
    split
    · exact hd
    · exact toDigitsCore_no_dash fuel (n / 10) _ hd

/-- The ids `POST /api/servers` and `POST /api/users` generate, the decimal
digits of `Date.now()`, contain no hyphen -/
theorem numToString_no_dash (n : Nat) : ('-' : Char) ∉ (numToString n).data := by
  have : (numToString n).data = Nat.toDigits 10 n := rfl
  rw [this]
  exact toDigitsCore_no_dash _ _ _ (by simp)

/-! ## Thread ids stay unique -/

theorem handle_thread_ids_nodup (db : Store) (clk : Clock) (r : Request)
    (h : (db.dms.map (fun d => d.id)).Nodup) :
    ((handle db clk r).db.dms.map (fun d => d.id)).Nodup := by
  cases r with
  | getTimeline => exact h
  | getServers => exact h
  | getDms => exact h
  | getUsers => exact h
  | postTimeline b => exact h
  | postServers b => exact h
  | getServer id =>
    simp only [handle, getServer]
    split <;> exact h
  | getDm id =>
    simp only [handle, getDm]
    split <;> exact h
  | postUsers b =>
    simp only [handle]
    rw [(postUsers_rest db clk b).2.2.1]
    exact h
  | postServerMessage id b =>
    simp only [handle, postServerMessage]
    split <;> exact h
  | postDms b =>
    simp only [handle]
    rw [postDms_ids]
    split
    · exact h
    · rename_i hn
      rw [List.nodup_append]
      refine ⟨h, List.nodup_singleton _, ?_⟩
      intro x hx hx2
      simp only [List.mem_singleton] at hx2
      subst hx2
      exact hn hx

theorem step_thread_ids_nodup (s : Sys) (clk : Clock) (op : Op)
    (h : (s.db.dms.map (fun d => d.id)).Nodup) :
    ((step s clk op).db.dms.map (fun d => d.id)).Nodup := by
  cases op with
  | rest r => exact handle_thread_ids_nodup s.db clk r h
  | socket sid e =>
    cases e with
    | joinServer id => exact h
    | leaveServer id => exact h
    | joinDm id => exact h
    | dmSend recipient text => exact h
    | serverMessage e =>
      simp only [step, onServerMessage]
      split <;> exact h

theorem run_thread_ids_nodup :
    ∀ (ops : List (Clock × Op)) (s : Sys), (s.db.dms.map (fun d => d.id)).Nodup →
      ((run s ops).db.dms.map (fun d => d.id)).Nodup
  | [], _, h => h
  | (clk, op) :: rest, s, h =>
    run_thread_ids_nodup rest (step s clk op) (step_thread_ids_nodup s clk op h)

/-- In every document the server reaches from a fresh `db.json`, no two
threads share an id -/
theorem reachable_thread_ids_nodup (ops : List (Clock × Op)) :
    ((run Sys.start ops).db.dms.map (fun d => d.id)).Nodup :=
  run_thread_ids_nodup ops Sys.start List.nodup_nil

theorem threadId_comm (a b : String) : threadId a b = threadId b a := by
  rw [threadId_eq, threadId_eq]
  cases h : strLt b a <;> cases h' : strLt a b
  · simp [strLt_total a b h' h]
  · simp
  · simp
  · rw [strLt_asymm b a h] at h'
    cases h'

/-! ## Claims -/

/-- C1: a successful REST submission puts the new message at the specified
position and changes nothing else in that sequence.  After
`POST /api/servers/:id/messages` on an existing server the reply is 200 and
the messages of the server found under `id` are the old ones followed by the
returned message; after
`POST /api/dms` the messages of the thread found under the computed thread id
are the old ones (none if there was no such thread) followed by the returned
message; after `POST /api/timeline` the timeline is the returned post followed
by the old timeline, which is what `GET /api/timeline` then returns. -/
theorem submission_lands_in_place (db : Store) (clk : Clock) (id : String)
    (sb : ServerMessageBody) (dmb : DmBody) (tb : TimelineBody) :
    ((∃ s ∈ db.servers, s.id = id) →
      (postServerMessage db clk id sb).status = 200 ∧
      ∃ msg, (postServerMessage db clk id sb).body = .serverMessage msg ∧
        serverMessages (postServerMessage db clk id sb).db id = serverMessages db id ++ [msg])
    ∧ (∃ msg, (postDms db clk dmb).status = 200 ∧ (postDms db clk dmb).body = .dmMessage msg ∧
        threadMessages (postDms db clk dmb).db
            (threadId (dmb.sender.getD "me") (dmb.recipient.getD "them")) =
          threadMessages db (threadId (dmb.sender.getD "me") (dmb.recipient.getD "them"))
            ++ [msg])
    ∧ (∃ post, (postTimeline db clk tb).status = 200 ∧ (postTimeline db clk tb).body = .post post ∧
        (postTimeline db clk tb).db.timeline = post :: db.timeline ∧
        (getTimeline (postTimeline db clk tb).db).body = .timeline (post :: db.timeline)) := by
  refine ⟨?_, ?_, ?_⟩
  · rintro ⟨s, hs, hid⟩
    cases h : findServer db id with
    | none => exact absurd hid ((findServer_eq_none db id).1 h s hs)
    | some srv =>
      rw [postServerMessage_found db clk id sb srv h]
      refine ⟨rfl, restMessage clk sb, rfl, ?_⟩
      rw [serverMessages_push db id _ srv h]
      simp [serverMessages, h]
  · exact ⟨dmMessage clk dmb, rfl, rfl, threadMessages_postDms db clk dmb⟩
  · exact ⟨_, rfl, rfl, rfl, rfl⟩

/-- C1 at the sample document: server `1` exists, and a message posted to it
is answered 200 and lands at the end of its messages. -/
theorem submission_lands_in_place_witness :
    (∃ s ∈ sampleDb.servers, s.id = "1") ∧
    (postServerMessage sampleDb ⟨7, 8⟩ "1" ⟨some "hello", none⟩).status = 200 ∧
    ∃ msg, (postServerMessage sampleDb ⟨7, 8⟩ "1" ⟨some "hello", none⟩).body = .serverMessage msg ∧
      serverMessages (postServerMessage sampleDb ⟨7, 8⟩ "1" ⟨some "hello", none⟩).db "1" =
        serverMessages sampleDb "1" ++ [msg] :=
  ⟨by decide,
   (submission_lands_in_place sampleDb ⟨7, 8⟩ "1" ⟨some "hello", none⟩
      ⟨none, none, none⟩ ⟨none, none⟩).1 (by decide)⟩

/-- C6: for all strings A and B the thread id `[from,to].sort().join('-')` is
the same for (from = A, to = B) and (from = B, to = A), and so is the room
`POST /api/dms` emits to. -/
theorem thread_id_symmetric (a b : String) :
    threadId a b = threadId b a ∧
    ∀ (db db2 : Store) (c c2 : Clock) (t t2 : Option String),
      (postDms db c ⟨some a, some b, t⟩).emits.map (fun e => e.room) =
        (postDms db2 c2 ⟨some b, some a, t2⟩).emits.map (fun e => e.room) := by
  refine ⟨threadId_comm a b, ?_⟩
  intro db db2 c c2 t t2
  simp [(postDms_reply _ _ _).2.2, dmThreadId, threadId_comm a b]

/-- C7, counterexample: on a document that already holds two threads with the
id `u1-u2`, the DM from `u1` to `u2` and then the DM from `u2` to `u1` both
land in the first of them and the document still holds two threads with that
id, not exactly one. -/
theorem duplicate_threads_remain :
    threadId "u1" "u2" = "u1-u2" ∧
    (postDms (postDms duplicateThreads ⟨1, 1⟩ ⟨some "u1", some "u2", some "hey"⟩).db ⟨2, 2⟩
        ⟨some "u2", some "u1", some "yo"⟩).db.dms =
      [{ id := "u1-u2", participants := ["u1", "u2"]
         messages := [⟨1, "u1", "hey", 1⟩, ⟨2, "u2", "yo", 2⟩] },
       { id := "u1-u2", participants := ["u2", "u1"], messages := [] }] ∧
    ((postDms (postDms duplicateThreads ⟨1, 1⟩ ⟨some "u1", some "u2", some "hey"⟩).db ⟨2, 2⟩
        ⟨some "u2", some "u1", some "yo"⟩).db.dms.map (fun d => d.id)).count
      (threadId "u1" "u2") = 2 := by
  decide

/-- C7, amended: for all strings from and to, after the DM (from, to, t1) and
then the DM (to, from, t2), both messages are, in submission order, the last
two of the thread found under `threadId from to`, and the two submissions
create at most one thread, on every document; the document then holds exactly
one thread with that id provided it held none or one before, as every document
the server reaches from a fresh `db.json` does (the number of such threads
becomes the larger of one and what it was); the id for `u1` and `u2` is
`u1-u2`. -/
theorem dm_pair_shares_thread (db : Store) (c1 c2 : Clock) (a b : String)
    (t1 t2 : Option String) :
    (postDms db c1 ⟨some a, some b, t1⟩).body = .dmMessage ⟨c1.now, a, t1.getD "", c1.date⟩
    ∧ (postDms (postDms db c1 ⟨some a, some b, t1⟩).db c2 ⟨some b, some a, t2⟩).body =
        .dmMessage ⟨c2.now, b, t2.getD "", c2.date⟩
    ∧ threadMessages (postDms (postDms db c1 ⟨some a, some b, t1⟩).db c2
          ⟨some b, some a, t2⟩).db (threadId a b) =
        threadMessages db (threadId a b) ++
          [⟨c1.now, a, t1.getD "", c1.date⟩, ⟨c2.now, b, t2.getD "", c2.date⟩]
    ∧ (postDms (postDms db c1 ⟨some a, some b, t1⟩).db c2 ⟨some b, some a, t2⟩).db.dms.length
        ≤ db.dms.length + 1
    ∧ ((postDms (postDms db c1 ⟨some a, some b, t1⟩).db c2
          ⟨some b, some a, t2⟩).db.dms.map (fun d => d.id)).count (threadId a b) =
        max 1 ((db.dms.map (fun d => d.id)).count (threadId a b))
    ∧ ((db.dms.map (fun d => d.id)).count (threadId a b) ≤ 1 →
        ((postDms (postDms db c1 ⟨some a, some b, t1⟩).db c2
          ⟨some b, some a, t2⟩).db.dms.map (fun d => d.id)).count (threadId a b) = 1)
    ∧ (∀ ops : List (Clock × Op), db = (run Sys.start ops).db →
        ((postDms (postDms db c1 ⟨some a, some b, t1⟩).db c2
          ⟨some b, some a, t2⟩).db.dms.map (fun d => d.id)).count (threadId a b) = 1)
    ∧ threadId "u1" "u2" = "u1-u2" := by
  have e1 : dmThreadId ⟨some a, some b, t1⟩ = threadId a b := rfl
  have e2 : dmThreadId ⟨some b, some a, t2⟩ = threadId a b := threadId_comm b a
  have m1 := threadMessages_postDms db c1 ⟨some a, some b, t1⟩
  have m2 := threadMessages_postDms (postDms db c1 ⟨some a, some b, t1⟩).db c2
    ⟨some b, some a, t2⟩
  have i1 := postDms_ids db c1 ⟨some a, some b, t1⟩
  have i2 := postDms_ids (postDms db c1 ⟨some a, some b, t1⟩).db c2 ⟨some b, some a, t2⟩
  rw [e1] at m1 i1
  rw [e2] at m2 i2
  have hmem : threadId a b ∈ (postDms db c1 ⟨some a, some b, t1⟩).db.dms.map (fun d => d.id) := by
    rw [i1]
    split <;> simp_all
  rw [if_pos hmem] at i2
  have hcount : ((postDms (postDms db c1 ⟨some a, some b, t1⟩).db c2
          ⟨some b, some a, t2⟩).db.dms.map (fun d => d.id)).count (threadId a b) =
        max 1 ((db.dms.map (fun d => d.id)).count (threadId a b)) := by
    rw [i2, i1]
    by_cases hm : threadId a b ∈ db.dms.map (fun d => d.id)
    · rw [if_pos hm]
      have := List.count_pos_iff.2 hm
      omega
    · rw [if_neg hm]
      have := List.count_eq_zero.2 hm
      simp [this]
  refine ⟨rfl, rfl, ?_, ?_, hcount, ?_, ?_, by decide⟩
  · rw [m2, m1]
    simp [dmMessage]
  · have hl := congrArg List.length i2
    have hl1 := congrArg List.length i1
    simp only [List.length_map] at hl hl1
    rw [hl, hl1]
    split <;> simp
  · intro hle
    rw [hcount]
    omega
  · intro ops hdb
    have hle := List.nodup_iff_count_le_one.1 (reachable_thread_ids_nodup ops) (threadId a b)
    rw [← hdb] at hle
    rw [hcount]
    omega

/-- C7, amended, at the fresh document: the DMs `u1` to `u2` and `u2` to `u1` leave
exactly one thread under the id of the pair. -/
theorem dm_pair_shares_thread_witness :
    ((init.dms.map (fun d => d.id)).count (threadId "u1" "u2") ≤ 1) ∧
    ((postDms (postDms init ⟨1, 1⟩ ⟨some "u1", some "u2", some "hey"⟩).db ⟨2, 2⟩
        ⟨some "u2", some "u1", some "yo"⟩).db.dms.map (fun d => d.id)).count
      (threadId "u1" "u2") = 1 :=
  ⟨by decide,
   (dm_pair_shares_thread init ⟨1, 1⟩ ⟨2, 2⟩ "u1" "u2" (some "hey") (some "yo")).2.2.2.2.2.1
     (by decide)⟩

/-- C9: `GET /api/servers/:id` and `POST /api/servers/:id/messages` answer 404
exactly when no server of the document has the id; in that case the POST
leaves the document as it was and emits nothing; otherwise the GET answers 200
with the stored server found under the id. -/
theorem server_not_found_iff (db : Store) (clk : Clock) (id : String)
    (b : ServerMessageBody) :
    ((getServer db id).status = 404 ↔ ∀ s ∈ db.servers, s.id ≠ id)
    ∧ ((postServerMessage db clk id b).status = 404 ↔ ∀ s ∈ db.servers, s.id ≠ id)
    ∧ ((∀ s ∈ db.servers, s.id ≠ id) →
        (postServerMessage db clk id b).db = db ∧ (postServerMessage db clk id b).emits = [])
    ∧ ((∃ s ∈ db.servers, s.id = id) →
        ∃ srv, srv ∈ db.servers ∧ srv.id = id ∧ findServer db id = some srv ∧
          getServer db id = { db := db, emits := [], status := 200, body := .server srv }) := by
  rw [← findServer_eq_none]
  cases h : findServer db id with
  | none =>
    rw [postServerMessage_missing db clk id b h]
    refine ⟨by simp [getServer, h], by simp, fun _ => ⟨rfl, rfl⟩, ?_⟩
    rintro ⟨s, hs, hid⟩
    exact absurd hid ((findServer_eq_none db id).1 h s hs)
  | some srv =>
    rw [postServerMessage_found db clk id b srv h]
    refine ⟨by simp [getServer, h], by simp, fun hn => by simp at hn, fun _ => ?_⟩
    refine ⟨srv, ?_, findServer_id db id srv h, rfl, by simp [getServer, h]⟩
    unfold findServer at h
    exact List.mem_of_find?_eq_some h

/-- C9 at the sample document: no server has id `2`, and a message posted to
it changes nothing and emits nothing. -/
theorem server_not_found_iff_witness :
    (∀ s ∈ sampleDb.servers, s.id ≠ "2") ∧
    (postServerMessage sampleDb ⟨7, 8⟩ "2" ⟨some "hello", none⟩).db = sampleDb ∧
    (postServerMessage sampleDb ⟨7, 8⟩ "2" ⟨some "hello", none⟩).emits = [] :=
  ⟨by decide,
   (server_not_found_iff sampleDb ⟨7, 8⟩ "2" ⟨some "hello", none⟩).2.2.1 (by decide)⟩

theorem trim_empty : trim "" = "" := by decide

/-- C10, counterexample: the bodies with `name: false` and with `name: 0` are
answered 400 and nothing is stored, although the name is present and its text,
`false` and `0`, is not blank. -/
theorem falsy_name_rejected :
    (postUsers init ⟨5, 5⟩ ⟨some (.bool false)⟩).status = 400 ∧
    (postUsers init ⟨5, 5⟩ ⟨some (.bool false)⟩).db = init ∧
    toStringOf (.bool false) = some "false" ∧ trim "false" ≠ "" ∧
    (postUsers init ⟨5, 5⟩ ⟨some (.num "0")⟩).status = 400 ∧
    (postUsers init ⟨5, 5⟩ ⟨some (.num "0")⟩).db = init ∧
    toStringOf (.num "0") = some "0" ∧ trim "0" ≠ "" := by
  decide

/-- C10, amended: `POST /api/users` answers 400 exactly when the name is
missing, is falsy (`null`, `false`, zero, the empty string) or has a text, the
result of `toString()`, that is empty once trimmed; whenever the answer is not
200 the document is left as it was.  Otherwise, when `toString()` returns a
text, it answers 200 with a user whose name is that text trimmed, puts exactly
that user at the end of `users`, and changes nothing else.  For a name that is
a string this is: 400 exactly when the name is blank, and otherwise the user
with the trimmed name is appended.  A name on which `toString()` throws is
left out of the statement. -/
theorem create_user_validation (db : Store) (clk : Clock) (b : UserBody) :
    ((postUsers db clk b).status = 400 ↔
        (b.name = none ∨ ∃ v, b.name = some v ∧
          (truthy v = false ∨ ∃ s, toStringOf v = some s ∧ trim s = "")))
    ∧ ((postUsers db clk b).status ≠ 200 →
        (postUsers db clk b).db = db ∧ (postUsers db clk b).emits = [])
    ∧ (∀ v s, b.name = some v → truthy v = true → toStringOf v = some s → trim s ≠ "" →
          (postUsers db clk b).status = 200 ∧
          (postUsers db clk b).body = .user { id := numToString clk.now, name := trim s } ∧
          (postUsers db clk b).db.users =
            db.users ++ [{ id := numToString clk.now, name := trim s }] ∧
          (postUsers db clk b).db.servers = db.servers ∧
          (postUsers db clk b).db.timeline = db.timeline ∧
          (postUsers db clk b).db.dms = db.dms ∧
          (postUsers db clk b).emits = [])
    ∧ (∀ s, b.name = some (.str s) →
          ((postUsers db clk b).status = 400 ↔ trim s = "") ∧
          (trim s ≠ "" →
            (postUsers db clk b).status = 200 ∧
            (postUsers db clk b).body = .user { id := numToString clk.now, name := trim s } ∧
            (postUsers db clk b).db.users =
              db.users ++ [{ id := numToString clk.now, name := trim s }]))
    ∧ (∀ v, truthy v = false ↔ (v = .null ∨ v = .bool false ∨ v = .num "0" ∨ v = .str "")) := by
  have hfalsy : ∀ v, truthy v = false ↔
      (v = .null ∨ v = .bool false ∨ v = .num "0" ∨ v = .str "") := by
    intro v
    cases v <;> simp [truthy]
  have hstr : ∀ s : String, trim s ≠ "" → truthy (.str s) = true := by
    intro s hs
    by_cases h : s = ""
    · rw [h] at hs
      exact absurd trim_empty hs
    · simp [truthy, h]
  refine ⟨?_, ?_, ?_, ?_, hfalsy⟩
  · cases hn : b.name with
    | none => simp [postUsers, hn]
    | some v =>
      cases ht : truthy v with
      | false => simp [postUsers, hn, ht]
      | true =>
        cases hs : toStringOf v with
        | none => simp [postUsers, hn, ht, hs]
        | some s =>
          by_cases hb : trim s = "" <;> simp [postUsers, hn, ht, hs, hb]
  · cases hn : b.name with
    | none => simp [postUsers, hn]
    | some v =>
      cases ht : truthy v with
      | false => simp [postUsers, hn, ht]
      | true =>
        cases hs : toStringOf v with
        | none => simp [postUsers, hn, ht, hs]
        | some s =>
          by_cases hb : trim s = "" <;> simp [postUsers, hn, ht, hs, hb]
  · intro v s hn ht hs hb
    simp [postUsers, hn, ht, hs, hb]
  · intro s hn
    constructor
    · by_cases hb : trim s = ""
      · by_cases ht : truthy (.str s) = true
        · simp [postUsers, hn, ht, toStringOf, hb]
        · simp only [Bool.not_eq_true] at ht
          simp [postUsers, hn, ht, hb]
      · simp [postUsers, hn, hstr s hb, toStringOf, hb]
    · intro hb
      simp [postUsers, hn, hstr s hb, toStringOf, hb]

/-- C10, amended, at the fresh document: the name ` Ann ` is truthy, its text
is not blank, and the user named `Ann` is stored. -/
theorem create_user_validation_witness :
    truthy (.str " Ann ") = true ∧ toStringOf (.str " Ann ") = some " Ann " ∧
    trim " Ann " ≠ "" ∧
    (postUsers init ⟨5, 5⟩ ⟨some (.str " Ann ")⟩).status = 200 ∧
    (postUsers init ⟨5, 5⟩ ⟨some (.str " Ann ")⟩).db.users = [{ id := "5", name := "Ann" }] :=
  ⟨by decide, by decide, by decide,
   ((create_user_validation init ⟨5, 5⟩ ⟨some (.str " Ann ")⟩).2.2.1 (.str " Ann ") " Ann "
      rfl (by decide) (by decide) (by decide)).1,
   ((create_user_validation init ⟨5, 5⟩ ⟨some (.str " Ann ")⟩).2.2.1 (.str " Ann ") " Ann "
      rfl (by decide) (by decide) (by decide)).2.2.1⟩

/-- C8, counterexample: on the fresh document a DM without text is answered
200, creates a thread holding a message with empty text, and is emitted. -/
theorem dm_without_text_accepted :
    (postDms init ⟨1, 2⟩ ⟨some "u1", some "u2", none⟩).status = 200 ∧
    (postDms init ⟨1, 2⟩ ⟨some "u1", some "u2", none⟩).db =
      { init with dms := [{ id := "u1-u2", participants := ["u1", "u2"]
                            messages := [{ id := 1, sender := "u1", text := "", createdAt := 2 }] }] } ∧
    (postDms init ⟨1, 2⟩ ⟨some "u1", some "u2", none⟩).db ≠ init ∧
    (postDms init ⟨1, 2⟩ ⟨some "u1", some "u2", none⟩).emits =
      [{ room := some "u1-u2", event := "dm:new"
         payload := .dmNew "u1-u2" { id := 1, sender := "u1", text := "", createdAt := 2 } }] := by
  decide

/-- C8, amended: a DM whose text is absent or empty is not rejected.
`POST /api/dms` answers 200 with a message whose text is the empty string,
appends it to the thread found under the computed thread id (created if
absent) and emits it to the room named by that id. -/
theorem dm_empty_text_committed (db : Store) (clk : Clock) (b : DmBody)
    (h : b.text = none ∨ b.text = some "") :
    (postDms db clk b).status = 200
    ∧ (postDms db clk b).body = .dmMessage
        { id := clk.now, sender := b.sender.getD "me", text := "", createdAt := clk.date }
    ∧ threadMessages (postDms db clk b).db
          (threadId (b.sender.getD "me") (b.recipient.getD "them")) =
        threadMessages db (threadId (b.sender.getD "me") (b.recipient.getD "them")) ++
          [{ id := clk.now, sender := b.sender.getD "me", text := "", createdAt := clk.date }]
    ∧ (postDms db clk b).emits =
        [{ room := some (threadId (b.sender.getD "me") (b.recipient.getD "them"))
           event := "dm:new"
           payload := .dmNew (threadId (b.sender.getD "me") (b.recipient.getD "them"))
             { id := clk.now, sender := b.sender.getD "me", text := "", createdAt := clk.date } }] := by
  have ht : b.text.getD "" = "" := by
    rcases h with h | h <;> simp [h]
  have hm : dmMessage clk b =
      { id := clk.now, sender := b.sender.getD "me", text := "", createdAt := clk.date } := by
    simp [dmMessage, ht]
  have hr := postDms_reply db clk b
  have hmsg := threadMessages_postDms db clk b
  rw [hm] at hr hmsg
  exact ⟨hr.1, hr.2.1, hmsg, hr.2.2⟩

/-- C8, amended, at the sample document: a DM with empty text is answered
200. -/
theorem dm_empty_text_committed_witness :
    ((⟨some "u1", some "u2", some ""⟩ : DmBody).text = none ∨
      (⟨some "u1", some "u2", some ""⟩ : DmBody).text = some "") ∧
    (postDms sampleDb ⟨4, 4⟩ ⟨some "u1", some "u2", some ""⟩).status = 200 :=
  ⟨by decide, (dm_empty_text_committed sampleDb ⟨4, 4⟩ ⟨some "u1", some "u2", some ""⟩
      (by decide)).1⟩

theorem onServerMessage_found (db : Store) (clk : Clock) (e : ServerMessageEvent)
    (srv : Server) (h : findServer db e.serverId = some srv) :
    onServerMessage db clk e =
      { db := { db with servers := pushServerMessage db.servers e.serverId (socketMessage clk e) }
        emits := [{ room := some (serverRoom e.serverId), event := "server:message"
                    payload := .serverMessage e.serverId (socketMessage clk e) }] } := by
  simp only [onServerMessage, h, socketMessage]

theorem onServerMessage_missing (db : Store) (clk : Clock) (e : ServerMessageEvent)
    (h : findServer db e.serverId = none) :
    onServerMessage db clk e =
      { db := db
        emits := [{ room := some (serverRoom e.serverId), event := "server:message"
                    payload := .serverMessage e.serverId (socketMessage clk e) }] } := by
  simp only [onServerMessage, h, socketMessage]

/-- C4, counterexample: on a document holding server `1`, the socket event
with author `alice` stores and emits a message by `alice`, the REST request
with the same text and channel stores and emits one by `anonymous`. -/
theorem socket_and_rest_differ :
    (onServerMessage sampleDb ⟨7, 8⟩ ⟨"1", none, some "alice", some "hi"⟩).db ≠
      (postServerMessage sampleDb ⟨7, 8⟩ "1" ⟨some "hi", none⟩).db ∧
    (onServerMessage sampleDb ⟨7, 8⟩ ⟨"1", none, some "alice", some "hi"⟩).emits ≠
      (postServerMessage sampleDb ⟨7, 8⟩ "1" ⟨some "hi", none⟩).emits ∧
    (serverMessages (onServerMessage sampleDb ⟨7, 8⟩ ⟨"1", none, some "alice", some "hi"⟩).db
      "1").map (fun m => m.author) = ["anonymous", "alice"] ∧
    (serverMessages (postServerMessage sampleDb ⟨7, 8⟩ "1" ⟨some "hi", none⟩).db
      "1").map (fun m => m.author) = ["anonymous", "anonymous"] := by
  decide

/-- C4, amended: when the server exists, the socket event `server:message` and
`POST /api/servers/:id/messages` with the same serverId, channelId and text
leave the same document exactly when the author of the socket event is
`anonymous`, the author the REST handler always records, and they make the
same emission exactly then; for any other author both the stored and the
published message differ: either handler appends one message to the server and
emits it to the same room, the socket one under the author it was given
(`anon` when absent), the REST one under `anonymous`. -/
theorem socket_matches_rest_iff (db : Store) (clk : Clock) (sid : String)
    (ch author text : Option String) (h : findServer db sid ≠ none) :
    ((onServerMessage db clk ⟨sid, ch, author, text⟩).db =
        (postServerMessage db clk sid ⟨text, ch⟩).db ↔ author = some "anonymous")
    ∧ ((onServerMessage db clk ⟨sid, ch, author, text⟩).emits =
        (postServerMessage db clk sid ⟨text, ch⟩).emits ↔ author = some "anonymous")
    ∧ serverMessages (onServerMessage db clk ⟨sid, ch, author, text⟩).db sid =
        serverMessages db sid ++
          [⟨clk.now, author.getD "anon", text.getD "", ch.getD "general", clk.date⟩]
    ∧ serverMessages (postServerMessage db clk sid ⟨text, ch⟩).db sid =
        serverMessages db sid ++
          [⟨clk.now, "anonymous", text.getD "", ch.getD "general", clk.date⟩]
    ∧ (onServerMessage db clk ⟨sid, ch, author, text⟩).emits =
        [{ room := some ("server:" ++ sid), event := "server:message"
           payload := .serverMessage sid
             ⟨clk.now, author.getD "anon", text.getD "", ch.getD "general", clk.date⟩ }]
    ∧ (postServerMessage db clk sid ⟨text, ch⟩).emits =
        [{ room := some ("server:" ++ sid), event := "server:message"
           payload := .serverMessage sid
             ⟨clk.now, "anonymous", text.getD "", ch.getD "general", clk.date⟩ }] := by
  obtain ⟨srv, hs⟩ := Option.ne_none_iff_exists'.1 h
  have hid := findServer_id db sid srv hs
  have hold : serverMessages db sid = srv.messages := by simp [serverMessages, hs]
  have hauthor : author.getD "anon" = "anonymous" → author = some "anonymous" := by
    intro ha
    cases author with
    | none => exact absurd ha (by decide)
    | some a => simpa using ha
  have e1 := onServerMessage_found db clk ⟨sid, ch, author, text⟩ srv hs
  have e2 := postServerMessage_found db clk sid ⟨text, ch⟩ srv hs
  rw [hid] at e2
  have m1 := serverMessages_push db sid (socketMessage clk ⟨sid, ch, author, text⟩) srv hs
  have m2 := serverMessages_push db sid (restMessage clk ⟨text, ch⟩) srv hs
  rw [e1, e2, hold]
  refine ⟨⟨?_, ?_⟩, ⟨?_, ?_⟩, m1, m2, rfl, rfl⟩
  · intro heq
    have hm := congrArg (fun d => serverMessages d sid) heq
    simp only [m1, m2, List.append_cancel_left_eq, List.cons.injEq, and_true] at hm
    have ha : author.getD "anon" = "anonymous" := congrArg ServerMessage.author hm
    exact hauthor ha
  · intro ha
    subst ha
    rfl
  · intro he
    simp only [List.cons.injEq, Emit.mk.injEq, Payload.serverMessage.injEq, and_true,
      true_and] at he
    have ha : author.getD "anon" = "anonymous" := congrArg ServerMessage.author he
    exact hauthor ha
  · intro ha
    subst ha
    rfl

/-- C4, amended, at the sample document: with author `anonymous` the socket
event and the REST request leave the same document and make the same
emission. -/
theorem socket_matches_rest_iff_witness :
    findServer sampleDb "1" ≠ none ∧
    (onServerMessage sampleDb ⟨7, 8⟩ ⟨"1", none, some "anonymous", some "hi"⟩).db =
      (postServerMessage sampleDb ⟨7, 8⟩ "1" ⟨some "hi", none⟩).db ∧
    (onServerMessage sampleDb ⟨7, 8⟩ ⟨"1", none, some "anonymous", some "hi"⟩).emits =
      (postServerMessage sampleDb ⟨7, 8⟩ "1" ⟨some "hi", none⟩).emits :=
  ⟨by decide,
   (socket_matches_rest_iff sampleDb ⟨7, 8⟩ "1" none (some "anonymous") (some "hi")
      (by decide)).1.2 rfl,
   (socket_matches_rest_iff sampleDb ⟨7, 8⟩ "1" none (some "anonymous") (some "hi")
      (by decide)).2.1.2 rfl⟩

/-! ## Sequences of submissions to one server -/

theorem findServer_push_same (db : Store) (id : String) (msg : ServerMessage) (srv : Server)
    (h : findServer db id = some srv) :
    findServer { db with servers := pushServerMessage db.servers id msg } id =
      some { srv with messages := srv.messages ++ [msg] } := by
  unfold findServer at h
  simp only [findServer]
  rw [find?_pushServerMessage, h]
  rfl

/-- One submission to an existing server pushes one message, whose id is the
`Date.now()` reading of the handler -/
theorem step_submit (s : Sys) (clk : Clock) (op : Op) (id : String) (srv : Server)
    (h : findServer s.db id = some srv) (ho : submitsTo id op = true) :
    ∃ m : ServerMessage, m.id = clk.now ∧
      findServer (step s clk op).db id = some { srv with messages := srv.messages ++ [m] } := by
  cases op with
  | rest r =>
    cases r <;> simp [submitsTo] at ho
    case postServerMessage id2 b =>
      subst ho
      refine ⟨restMessage clk b, rfl, ?_⟩
      simp only [step, handle]
      rw [postServerMessage_found s.db clk id2 b srv h]
      exact findServer_push_same s.db id2 _ srv h
  | socket sid e =>
    cases e <;> simp [submitsTo] at ho
    case serverMessage e =>
      subst ho
      refine ⟨socketMessage clk e, rfl, ?_⟩
      simp only [step]
      rw [onServerMessage_found s.db clk e srv h]
      exact findServer_push_same s.db e.serverId _ srv h

theorem run_submissions (id : String) :
    ∀ (ops : List (Clock × Op)) (s : Sys) (srv : Server),
      findServer s.db id = some srv → (∀ o ∈ ops, submitsTo id o.2 = true) →
      ∃ added : List ServerMessage,
        serverMessages (run s ops).db id = srv.messages ++ added ∧
        added.map (fun m => m.id) = ops.map (fun o => o.1.now)
  | [], s, srv, h, _ => ⟨[], by simp [run, serverMessages, h], rfl⟩
  | (clk, op) :: rest, s, srv, h, ho => by
    obtain ⟨m, hm, hf⟩ := step_submit s clk op id srv h (ho (clk, op) (by simp))
    obtain ⟨added, h1, h2⟩ := run_submissions id rest (step s clk op) _ hf
      (fun o hmem => ho o (List.mem_cons_of_mem _ hmem))
    refine ⟨m :: added, ?_, ?_⟩
    · simp only [run, h1]
      simp
    · simp [h2, hm]

/-- C5, counterexample: two submissions to server `1` handled in the same
millisecond, one through REST and one through the socket, add two messages
with the same id. -/
theorem same_millisecond_same_id :
    serverMessages
        (run { db := sampleDb, members := [], log := [] }
          [(⟨5, 5⟩, .rest (.postServerMessage "1" ⟨some "a", none⟩)),
           (⟨5, 5⟩, .socket "s1" (.serverMessage ⟨"1", none, none, some "b"⟩))]).db "1" =
      serverMessages sampleDb "1" ++
        [⟨5, "anonymous", "a", "general", 5⟩, ⟨5, "anon", "b", "general", 5⟩] ∧
    ¬ ([(⟨5, "anonymous", "a", "general", 5⟩ : ServerMessage),
        ⟨5, "anon", "b", "general", 5⟩].map (fun m => m.id)).Nodup := by
  decide

/-- C5, amended: N server-message submissions to an existing server, handled
one after another through REST or the socket in any order, add exactly N
entries at the end of the messages of that server.  Their ids are the
`Date.now()` readings of the N handlers, in order: non-decreasing when the
clock is, and pairwise distinct when the readings are pairwise distinct. -/
theorem submissions_all_appended (s : Sys) (id : String) (srv : Server)
    (ops : List (Clock × Op)) (h : findServer s.db id = some srv)
    (ho : ∀ o ∈ ops, submitsTo id o.2 = true) :
    ∃ added : List ServerMessage,
      serverMessages (run s ops).db id = srv.messages ++ added ∧
      added.length = ops.length ∧
      added.map (fun m => m.id) = ops.map (fun o => o.1.now) ∧
      ((ops.map (fun o => o.1.now)).Pairwise (fun x y => x ≤ y) →
        (added.map (fun m => m.id)).Pairwise (fun x y => x ≤ y)) ∧
      ((ops.map (fun o => o.1.now)).Nodup → (added.map (fun m => m.id)).Nodup) := by
  obtain ⟨added, h1, h2⟩ := run_submissions id ops s srv h ho
  refine ⟨added, h1, ?_, h2, ?_, ?_⟩
  · have := congrArg List.length h2
    simpa using this
  · intro hp
    rw [h2]
    exact hp
  · intro hp
    rw [h2]
    exact hp

/-- C5, amended, at the sample document: one REST and one socket submission to
server `1` add two messages. -/
theorem submissions_all_appended_witness :
    findServer sampleDb "1" = some sampleServer ∧
    ∃ added : List ServerMessage,
      serverMessages
          (run { db := sampleDb, members := [], log := [] }
            [(⟨5, 5⟩, .rest (.postServerMessage "1" ⟨some "a", none⟩)),
             (⟨6, 6⟩, .socket "s1" (.serverMessage ⟨"1", none, none, some "b"⟩))]).db "1" =
        sampleServer.messages ++ added ∧
      added.length = 2 :=
  ⟨by decide,
   (submissions_all_appended { db := sampleDb, members := [], log := [] } "1" sampleServer
      [(⟨5, 5⟩, .rest (.postServerMessage "1" ⟨some "a", none⟩)),
       (⟨6, 6⟩, .socket "s1" (.serverMessage ⟨"1", none, none, some "b"⟩))]
      (by decide) (by simp [submitsTo])).imp
     (fun _ hx => ⟨hx.1, hx.2.1⟩)⟩

/-! ## Rooms -/

theorem serverRoom_inj (x y : String) (h : serverRoom x = serverRoom y) : x = y := by
  have h2 := congrArg String.data h
  simp only [serverRoom, String.data_append] at h2
  exact String.ext (List.append_cancel_left h2)

theorem dash_mem_threadId (a b : String) : ('-' : Char) ∈ (threadId a b).data := by
  rw [threadId_eq]
  split <;> simp [String.data_append]

theorem dash_mem_serverRoom (x : String) :
    ('-' : Char) ∈ (serverRoom x).data ↔ ('-' : Char) ∈ x.data := by
  simp [serverRoom, String.data_append]

/-- C3, counterexample: a connection whose only subscription is
`join:server` for the id `a-z` is a recipient of the DM publication of the
thread between `server:a` and `z`, whose thread id is `server:a-z`. -/
theorem dm_reaches_server_room :
    (run Sys.start [(⟨1, 1⟩, .socket "s1" (.joinServer "a-z"))]).members =
      [("s1", serverRoom "a-z")] ∧
    (postDms init ⟨2, 2⟩ ⟨some "server:a", some "z", some "hi"⟩).emits =
      [{ room := some "server:a-z", event := "dm:new"
         payload := .dmNew "server:a-z" ⟨2, "server:a", "hi", 2⟩ }] ∧
    delivered (run Sys.start [(⟨1, 1⟩, .socket "s1" (.joinServer "a-z"))]).members "s1"
      { room := some "server:a-z", event := "dm:new"
        payload := .dmNew "server:a-z" ⟨2, "server:a", "hi", 2⟩ } = true := by
  decide

/-- C3, amended: rooms are plain strings, `server:` followed by the id for a
server and the thread id itself for a DM thread, and every socket is besides
in the room named by its own socket id.  A connection with socket id S whose
only subscription is `join:server` for X receives the server-message
publication of server Y (REST or socket) exactly when Y is X or S is the
string `server:` followed by Y, hence for an S without colon exactly when Y is
X.  It receives a DM publication exactly when the thread id is the string
`server:` followed by X or is S; this cannot happen when neither X nor S
contains a hyphen, X being for instance an id `POST /api/servers` generated. -/
theorem room_isolation (members : List (String × String)) (sid x : String)
    (hsub : ∀ r, (sid, r) ∈ members ↔ r = serverRoom x) :
    (∀ (db : Store) (clk : Clock) (y : String) (b : ServerMessageBody),
        ∀ e ∈ (postServerMessage db clk y b).emits,
          (delivered members sid e = true ↔ (y = x ∨ "server:" ++ y = sid)))
    ∧ (∀ (db : Store) (clk : Clock) (ev : ServerMessageEvent),
        ∀ e ∈ (onServerMessage db clk ev).emits,
          (delivered members sid e = true ↔ (ev.serverId = x ∨ "server:" ++ ev.serverId = sid)))
    ∧ (∀ (db : Store) (clk : Clock) (b : DmBody),
        ∀ e ∈ (postDms db clk b).emits,
          (delivered members sid e = true ↔
            (threadId (b.sender.getD "me") (b.recipient.getD "them") = "server:" ++ x ∨
             threadId (b.sender.getD "me") (b.recipient.getD "them") = sid)))
    ∧ (':' ∉ sid.data →
        (∀ (db : Store) (clk : Clock) (y : String) (b : ServerMessageBody),
          ∀ e ∈ (postServerMessage db clk y b).emits, (delivered members sid e = true ↔ y = x))
        ∧ (∀ (db : Store) (clk : Clock) (ev : ServerMessageEvent),
          ∀ e ∈ (onServerMessage db clk ev).emits,
            (delivered members sid e = true ↔ ev.serverId = x)))
    ∧ ('-' ∉ x.data → '-' ∉ sid.data →
        ∀ (db : Store) (clk : Clock) (b : DmBody),
          ∀ e ∈ (postDms db clk b).emits, delivered members sid e = false)
    ∧ (∀ n : Nat, x = numToString n → '-' ∉ sid.data →
        ∀ (db : Store) (clk : Clock) (b : DmBody),
          ∀ e ∈ (postDms db clk b).emits, delivered members sid e = false) := by
  have hroom : ∀ (y : String) (e : Emit), e.room = some (serverRoom y) →
      (delivered members sid e = true ↔ (y = x ∨ "server:" ++ y = sid)) := by
    intro y e he
    simp only [delivered, he, hsub, Bool.or_eq_true, decide_eq_true_eq]
    constructor
    · rintro (h | h)
      · exact Or.inr h
      · exact Or.inl (serverRoom_inj y x h)
    · rintro (h | h)
      · exact Or.inr (by rw [h])
      · exact Or.inl h
  have hrest : ∀ (db : Store) (clk : Clock) (y : String) (b : ServerMessageBody),
      ∀ e ∈ (postServerMessage db clk y b).emits,
        (delivered members sid e = true ↔ (y = x ∨ "server:" ++ y = sid)) := by
    intro db clk y b e he
    cases h : findServer db y with
    | none =>
      rw [postServerMessage_missing db clk y b h] at he
      simp at he
    | some srv =>
      rw [postServerMessage_found db clk y b srv h, findServer_id db y srv h] at he
      simp only [List.mem_singleton] at he
      subst he
      exact hroom y _ rfl
  have hsock : ∀ (db : Store) (clk : Clock) (ev : ServerMessageEvent),
      ∀ e ∈ (onServerMessage db clk ev).emits,
        (delivered members sid e = true ↔ (ev.serverId = x ∨ "server:" ++ ev.serverId = sid)) := by
    intro db clk ev e he
    have hem : (onServerMessage db clk ev).emits =
        [{ room := some (serverRoom ev.serverId), event := "server:message"
           payload := .serverMessage ev.serverId (socketMessage clk ev) }] := rfl
    rw [hem] at he
    simp only [List.mem_singleton] at he
    subst he
    exact hroom ev.serverId _ rfl
  have hdm : ∀ (db : Store) (clk : Clock) (b : DmBody),
      ∀ e ∈ (postDms db clk b).emits,
        (delivered members sid e = true ↔
          (threadId (b.sender.getD "me") (b.recipient.getD "them") = "server:" ++ x ∨
           threadId (b.sender.getD "me") (b.recipient.getD "them") = sid)) := by
    intro db clk b e he
    rw [(postDms_reply db clk b).2.2] at he
    simp only [List.mem_singleton] at he
    subst he
    simp only [delivered, hsub, dmThreadId, serverRoom, Bool.or_eq_true, decide_eq_true_eq]
    exact Or.comm
  have hdash : '-' ∉ x.data → '-' ∉ sid.data →
      ∀ (db : Store) (clk : Clock) (b : DmBody),
        ∀ e ∈ (postDms db clk b).emits, delivered members sid e = false := by
    intro hx hs db clk b e he
    have h1 := hdm db clk b e he
    cases hd : delivered members sid e with
    | false => rfl
    | true =>
      have h3 := dash_mem_threadId (b.sender.getD "me") (b.recipient.getD "them")
      rcases h1.1 hd with h2 | h2
      · rw [h2] at h3
        exact absurd ((dash_mem_serverRoom x).1 h3) hx
      · rw [h2] at h3
        exact absurd h3 hs
  have hcolon : ':' ∉ sid.data → ∀ y : String, "server:" ++ y ≠ sid := by
    intro hs y h
    apply hs
    rw [← h]
    simp [String.data_append]
  refine ⟨hrest, hsock, hdm, ?_, hdash, ?_⟩
  · intro hs
    constructor
    · intro db clk y b e he
      rw [hrest db clk y b e he]
      exact ⟨fun h => h.resolve_right (hcolon hs y), Or.inl⟩
    · intro db clk ev e he
      rw [hsock db clk ev e he]
      exact ⟨fun h => h.resolve_right (hcolon hs ev.serverId), Or.inl⟩
  · intro n hn
    exact hdash (hn ▸ numToString_no_dash n)

/-- C3, amended, at the connection `s1` joined only to server `7`: the
publication of a message posted to server `1` reaches it exactly when `1` is
`7` or `server:1` is `s1`. -/
theorem room_isolation_witness :
    (∀ r, ("s1", r) ∈ [("s1", serverRoom "7")] ↔ r = serverRoom "7") ∧
    ∀ e ∈ (postServerMessage sampleDb ⟨7, 8⟩ "1" ⟨some "hello", none⟩).emits,
      (delivered [("s1", serverRoom "7")] "s1" e = true ↔ ("1" = "7" ∨ "server:" ++ "1" = "s1")) :=
  ⟨by simp,
   (room_isolation [("s1", serverRoom "7")] "s1" "7" (by simp)).1
     sampleDb ⟨7, 8⟩ "1" ⟨some "hello", none⟩⟩

/-! ## Published server messages against stored ones -/

theorem serverMessages_congr (db db2 : Store) (id : String) (h : db2.servers = db.servers) :
    serverMessages db2 id = serverMessages db id := by
  simp [serverMessages, findServer, h]

theorem published_append (l l2 : List Emit) (id : String) :
    published (l ++ l2) id = published l id ++ published l2 id := by
  simp [published, List.filterMap_append]

/-- A push to the server found under `id`, emitted to the room of `id`, adds
the same message to what is stored and to what is published, for every
server id -/
theorem push_and_emit (db : Store) (id : String) (msg : ServerMessage) (srv : Server)
    (h : findServer db id = some srv) (x : String) :
    serverMessages { db with servers := pushServerMessage db.servers id msg } x =
      serverMessages db x ++
        published [{ room := some (serverRoom id), event := "server:message"
                     payload := .serverMessage id msg }] x := by
  by_cases hx : x = id
  · subst hx
    rw [serverMessages_push db x msg srv h]
    simp [published, serverMessages, h]
  · rw [serverMessages_push_other db id x msg hx]
    have hr : serverRoom id ≠ serverRoom x := fun hr => hx (serverRoom_inj id x hr).symm
    simp [published, hr]

/-- What a REST handler adds to the stored messages of a server is what it
publishes to the room of that server -/
theorem handle_stored_eq_published (db : Store) (clk : Clock) (r : Request) (x : String) :
    serverMessages (handle db clk r).db x =
      serverMessages db x ++ published (handle db clk r).emits x := by
  cases r with
  | getTimeline => simp [handle, getTimeline, published]
  | getServers => simp [handle, getServers, published]
  | getDms => simp [handle, getDms, published]
  | getUsers => simp [handle, getUsers, published]
  | getServer id =>
    simp only [handle, getServer]
    split <;> simp [published]
  | getDm id =>
    simp only [handle, getDm]
    split <;> simp [published]
  | postTimeline b =>
    simp [handle, postTimeline, published, serverMessages, findServer]
  | postUsers b =>
    simp only [handle]
    rw [serverMessages_congr db _ x (postUsers_rest db clk b).1, (postUsers_rest db clk b).2.2.2]
    simp [published]
  | postDms b =>
    simp only [handle]
    rw [serverMessages_congr db _ x (postDms_rest db clk b).2.1]
    simp [(postDms_reply db clk b).2.2, published]
  | postServers b =>
    simp only [handle, postServers, serverMessages, findServer, List.find?_append]
    cases h : List.find? (fun s => decide (s.id = x)) db.servers with
    | some srv => simp [published]
    | none =>
      by_cases hx : numToString clk.now = x <;> simp [published, hx]
  | postServerMessage id b =>
    simp only [handle]
    cases h : findServer db id with
    | none =>
      rw [postServerMessage_missing db clk id b h]
      simp [published]
    | some srv =>
      rw [postServerMessage_found db clk id b srv h, findServer_id db id srv h]
      exact push_and_emit db id _ srv h x

/-- One handler keeps stored and published server messages equal, provided a
socket `server:message` addresses a server of the document -/
theorem step_stored_eq_published (s : Sys) (clk : Clock) (op : Op)
    (hk : match op with
      | .socket _ (.serverMessage e) => findServer s.db e.serverId ≠ none
      | _ => True)
    (hinv : ∀ x, published s.log x = serverMessages s.db x) (x : String) :
    published (step s clk op).log x = serverMessages (step s clk op).db x := by
  cases op with
  | rest r =>
    simp only [step, published_append, hinv x]
    exact (handle_stored_eq_published s.db clk r x).symm
  | socket sid e =>
    cases e with
    | joinServer id => exact hinv x
    | leaveServer id => exact hinv x
    | joinDm id => exact hinv x
    | dmSend recipient text =>
      simp only [step, published_append, hinv x, onDmSend]
      simp [published]
    | serverMessage e =>
      obtain ⟨srv, hs⟩ := Option.ne_none_iff_exists'.1 hk
      simp only [step, published_append, hinv x]
      rw [onServerMessage_found s.db clk e srv hs]
      exact (push_and_emit s.db e.serverId _ srv hs x).symm

theorem run_stored_eq_published :
    ∀ (ops : List (Clock × Op)) (s : Sys), knownTargets s ops →
      (∀ x, published s.log x = serverMessages s.db x) →
      ∀ x, published (run s ops).log x = serverMessages (run s ops).db x
  | [], _, _, hinv => hinv
  | (clk, op) :: rest, s, hk, hinv =>
    run_stored_eq_published rest (step s clk op) hk.2
      (step_stored_eq_published s clk op hk.1 hinv)

/-- Runs in which every socket `server:message` addresses an existing server:
from the fresh document, the messages published to the room of a server are
exactly the stored messages of that server, in the same order -/
theorem published_eq_stored_of_known (ops : List (Clock × Op))
    (hk : knownTargets Sys.start ops) (x : String) :
    published (run Sys.start ops).log x = serverMessages (run Sys.start ops).db x :=
  run_stored_eq_published ops Sys.start hk (fun _ => rfl) x

/-- C2, failing input: from the fresh document, the single socket event
`server:message` for the unknown server `42` publishes a message to the room
`server:42`, and the document stays empty: the published message is not
stored.  The REST request for the same server publishes nothing. -/
theorem socket_publishes_unstored :
    published (run Sys.start
        [(⟨1, 1⟩, .socket "s1" (.serverMessage ⟨"42", none, some "bob", some "hi"⟩))]).log "42" =
      [⟨1, "bob", "hi", "general", 1⟩] ∧
    serverMessages (run Sys.start
        [(⟨1, 1⟩, .socket "s1" (.serverMessage ⟨"42", none, some "bob", some "hi"⟩))]).db "42" =
      [] ∧
    (run Sys.start
        [(⟨1, 1⟩, .socket "s1" (.serverMessage ⟨"42", none, some "bob", some "hi"⟩))]).db = init ∧
    published (run Sys.start
        [(⟨1, 1⟩, .rest (.postServerMessage "42" ⟨some "hi", none⟩))]).log "42" = [] := by
  decide

end Whisp
